import Mathlib

/-!
Verification of the authentication gate of the COW forward proxy (src/auth.go).

Go strings are modelled as `List Char` (all strings involved are ASCII, so
characters coincide with bytes).  The MD5 hex helper `md5sum` and the base64
decoder are external collaborators (util.go / encoding/base64); the embedding
takes them as explicit function arguments, so every theorem holds for the real
implementations.  Wall-clock time is passed explicitly: `nowNs` is the current
time in nanoseconds (used by the nonce staleness check, which Go performs on
`time.Duration` nanosecond values) and `tSec` is the current Unix time in
seconds (used by `genNonce`).
-/

namespace Cow

abbrev Str := List Char

/-- Go `strings.Split(s, sep)` for a single-character separator: splits around
every occurrence of `c`; the result is never empty. -/
def gosplit (c : Char) : Str → List Str
  | [] => [[]]
  | x :: xs =>
    if x = c then [] :: gosplit c xs
    else
      match gosplit c xs with
      | [] => [[x]]
      | h :: t => (x :: h) :: t

/-- Go `strings.SplitN(s, sep, 2)` for a single-character separator, returning
`none` when the separator does not occur (the Go call then yields a
one-element slice). -/
def gosplitN2 (c : Char) : Str → Option (Str × Str)
  | [] => none
  | x :: xs =>
    if x = c then some ([], xs)
    else
      match gosplitN2 c xs with
      | none => none
      | some (a, b) => some (x :: a, b)

/-- Go `strings.TrimSpace` (the inputs of interest are ASCII, so
`Char.isWhitespace` covers the whitespace that can occur). -/
def trimSpace (s : Str) : Str :=
  ((s.dropWhile Char.isWhitespace).reverse.dropWhile Char.isWhitespace).reverse

/-- Go `strings.ToLower` restricted to ASCII. -/
def goToLower (s : Str) : Str := s.map Char.toLower

/-- Decimal digit accumulator used by the `strconv.Atoi` model. -/
def decDigitsToNat (s : Str) : Nat := s.foldl (fun a c => a * 10 + (c.toNat - 48)) 0

/-- Go `strconv.Atoi` (64-bit int): optional sign, one or more decimal digits,
result within the int64 range. -/
def goAtoi (s : Str) : Option Int :=
  match s with
  | [] => none
  | c :: rest =>
    if c = '+' then
      if rest ≠ [] ∧ rest.all Char.isDigit ∧ decDigitsToNat rest ≤ 9223372036854775807 then
        some (decDigitsToNat rest)
      else none
    else if c = '-' then
      if rest ≠ [] ∧ rest.all Char.isDigit ∧ decDigitsToNat rest ≤ 9223372036854775808 then
        some (-(decDigitsToNat rest : Int))
      else none
    else
      if s.all Char.isDigit ∧ decDigitsToNat s ≤ 9223372036854775807 then
        some (decDigitsToNat s)
      else none

/-- Value of one hexadecimal digit, accepting both cases. -/
def hexDigitVal (c : Char) : Option Nat :=
  if '0' ≤ c ∧ c ≤ '9' then some (c.toNat - 48)
  else if 'a' ≤ c ∧ c ≤ 'f' then some (c.toNat - 87)
  else if 'A' ≤ c ∧ c ≤ 'F' then some (c.toNat - 55)
  else none

/-- Folds a hexadecimal digit string to its value, `none` on a non-hex char. -/
def hexDigitsToNat (s : Str) : Option Nat :=
  s.foldl (fun a c => a.bind fun v => (hexDigitVal c).map fun d => v * 16 + d) (some 0)

/-- Go `strconv.ParseInt(s, 16, 64)`: optional sign, one or more hex digits,
no prefix, result within the int64 range. -/
def parseHexInt64 (s : Str) : Option Int :=
  match s with
  | [] => none
  | c :: rest =>
    if c = '+' then
      match (if rest = [] then none else hexDigitsToNat rest) with
      | none => none
      | some v => if v ≤ 9223372036854775807 then some (v : Int) else none
    else if c = '-' then
      match (if rest = [] then none else hexDigitsToNat rest) with
      | none => none
      | some v => if v ≤ 9223372036854775808 then some (-(v : Int)) else none
    else
      match hexDigitsToNat s with
      | none => none
      | some v => if v ≤ 9223372036854775807 then some (v : Int) else none

/-- Digit character for values below 16 (`0`-`9` then lowercase `a`-`f`),
as produced by Go's `%d` and `%x` formatting verbs. -/
def digitCharB (d : Nat) : Char :=
  if d < 10 then Char.ofNat (48 + d) else Char.ofNat (87 + d)

/-- Most-significant-digit-first base conversion; the first argument is fuel
(any fuel at least the input makes the recursion complete). -/
def natToBaseAux (b : Nat) : Nat → Nat → Str
  | 0, _ => []
  | _ + 1, 0 => []
  | fuel + 1, n + 1 => natToBaseAux b fuel ((n + 1) / b) ++ [digitCharB ((n + 1) % b)]

/-- Base-`b` rendering of a natural number, `"0"` for zero. -/
def natToBase (b n : Nat) : Str :=
  if n = 0 then ['0'] else natToBaseAux b n n

/-- Go `fmt.Sprintf("%x", n)` for a non-negative value: lowercase, unpadded. -/
def natToHex (n : Nat) : Str := natToBase 16 n

/-- Go `fmt.Sprintf("%d", n)` for a non-negative value. -/
def natToDec (n : Nat) : Str := natToBase 10 n

/-- Go `fmt.Sprintf("%x", t)` on an int64: a leading minus sign for negative
values, otherwise the unpadded lowercase hex of the magnitude. -/
def intToHex (t : Int) : Str :=
  if t < 0 then '-' :: natToHex (-t).toNat else natToHex t.toNat

/-! ## Data model (auth.go lines 18-54) -/

/-- The realm constant `authRealm = "cow proxy"` (auth.go line 19). -/
def authRealm : Str := "cow proxy".toList

/-- The fixed HTML body `authRawBodyTmpl` (auth.go lines 20-29), byte for
byte including the tab indentation and the trailing newline of the Go raw
string literal. -/
def authRawBodyTmpl : Str :=
  ("<!DOCTYPE html>\n<html>\n\t<head> <title>COW Proxy</title> </head>\n"
    ++ "\t<body>\n\t\t<h1>407 Proxy authentication required</h1>\n"
    ++ "\t\t<hr />\n\t\tGenerated by <i>COW</i>\n\t</body>\n</html>\n").toList

/-- `type netAddr struct` (auth.go lines 32-35): an IPv4 address and mask,
each a 32-bit quantity modelled as `Nat`. -/
structure netAddr where
  ip : Nat
  mask : Nat
deriving DecidableEq

/-- `type authUser struct` (auth.go lines 37-42).  The user name is the key
of the credential map and is not stored in the record.  `port = 0` means any
port. -/
structure authUser where
  passwd : Str
  ha1 : Str
  port : Nat
deriving DecidableEq

/-- The global `auth` struct (auth.go lines 44-54).  The `TimeoutSet` cache
is an external collaborator consumed through `has`/`add`; it is modelled by
the list of member IPs.  The parsed 407 template is a fixed value and is kept
as a separate top-level definition. -/
structure AuthState where
  required : Bool
  user : List (Str × authUser)
  allowedClient : List netAddr
  authed : List Str
deriving DecidableEq

/-- Lookup in the credential map `auth.user` (first match; keys are unique
because `addUserPasswd` rejects duplicates). -/
def userLookup (m : List (Str × authUser)) (k : Str) : Option authUser :=
  match m with
  | [] => none
  | (u, au) :: rest => if u = k then some au else userLookup rest k

/-- The connection object, reduced to the two accessors the core consumes:
the address part of `RemoteAddr` and the port part of `LocalAddr`. -/
structure ClientConn where
  remoteIP : Str
  localPort : Nat
deriving DecidableEq

/-- The parsed HTTP request, reduced to the fields the core consumes
(`r.Method`, `r.ProxyAuthorization`) plus the request URL, which the digest
protocol notably does `not` consume. -/
structure Request where
  method : Str
  url : Str
  proxyAuthorization : Str
deriving DecidableEq

/-- Go `error` results of the auth functions: `nil` is `none`,
`errAuthRequired` is the single undifferentiated authentication-required
sentinel, and every `errors.New`/`fmt.Errorf` value is `errMsg`. -/
inductive GoErr where
  | authRequired
  | errMsg (msg : Str)
deriving DecidableEq

/-! ## Key=value header list (external parser, spec section 6) -/

/-- Strips one layer of surrounding double quotes. -/
def stripQuotes (v : Str) : Str :=
  match v with
  | '"' :: rest => if rest ≠ [] ∧ rest.getLast? = some '"' then rest.dropLast else v
  | _ => v

/-- Insert with overwrite, mirroring assignment into a Go map. -/
def kvInsert (m : List (Str × Str)) (k v : Str) : List (Str × Str) :=
  m.filter (fun p => p.1 ≠ k) ++ [(k, v)]

/-- Modelled from the spec: `parseKeyValueList` is the generic key=value
header-list parser, an external collaborator (spec section 6: it consumes a
comma-separated list of pairs written key=value or key="value"; recognized
keys are nonce, nc, cnonce, uri, qop, username, response).  Items without an
equals sign contribute nothing; an empty input yields an empty list. -/
def parseKeyValueList (s : Str) : List (Str × Str) :=
  (gosplit ',' s).foldl
    (fun acc item =>
      match gosplitN2 '=' (trimSpace item) with
      | none => acc
      | some (k, v) => kvInsert acc (trimSpace k) (stripQuotes (trimSpace v)))
    []

/-- Go map indexing `m[k]`: the zero value (empty string) when absent. -/
def kvGet? (m : List (Str × Str)) (k : Str) : Option Str :=
  match m with
  | [] => none
  | (k0, v) :: rest => if k0 = k then some v else kvGet? rest k

/-- Go map indexing with the comma-ok form collapsed to the zero value. -/
def kvGet (m : List (Str × Str)) (k : Str) : Str :=
  match kvGet? m k with
  | some v => v
  | none => []

/-! ## Credential store (auth.go lines 56-134) -/

/-- `(*authUser).initHA1` (auth.go lines 56-60): lazily fills the digest key
`ha1 = md5sum(user + ":" + authRealm + ":" + passwd)`; once non-empty it is
never recomputed.  The store update it performs in Go is pure memoization of
this value. -/
def initHA1 (md5sum : Str → Str) (user : Str) (au : authUser) : authUser :=
  if au.ha1 = [] then
    { au with ha1 := md5sum (user ++ ":".toList ++ authRealm ++ ":".toList ++ au.passwd) }
  else au

/-- `parseUserPasswd` (auth.go lines 62-86): splits on `:` into
username:password[:port].  The Go code converts the parsed port with
`uint16(port)` after checking `0 < port ≤ 0xffff`. -/
def parseUserPasswd (userPasswd : Str) : Except Str (Str × authUser) :=
  let arr := gosplit ':' userPasswd
  let n := arr.length
  if n = 1 ∨ n > 3 then
    .error ("user password syntax wrong, should be username:password[:port]".toList)
  else
    let user := arr.getD 0 []
    let passwd := arr.getD 1 []
    if user = [] ∨ passwd = [] then
      .error ("user password should not contain empty user name or password".toList)
    else if n = 3 ∧ arr.getD 2 [] ≠ [] then
      match goAtoi (arr.getD 2 []) with
      | none => .error ("user password invalid port".toList)
      | some port =>
        if port ≤ 0 ∨ port > 0xffff then .error ("user password invalid port".toList)
        else .ok (user, ⟨passwd, [], port.toNat % 65536⟩)
    else .ok (user, ⟨passwd, [], 0⟩)

/-- Outcome of `addUserPasswd` (auth.go lines 121-134).  `fatal` models a
`Fatal(...)` call (startup aborts); `panicNilDeref` models the nil-pointer
dereference that `debug.Println("user:", user, "port:", au.port)` performs:
its arguments are evaluated before the `err` check on the next line, and
`parseUserPasswd` returns `au = nil` exactly when `err != nil`. -/
inductive AddUserResult where
  | ok (user : List (Str × authUser))
  | fatal (msg : Str)
  | panicNilDeref
deriving DecidableEq

/-- `addUserPasswd` (auth.go lines 121-134) acting on the credential map. -/
def addUserPasswd (val : Str) (users : List (Str × authUser)) : AddUserResult :=
  if val = [] then .ok users
  else
    match parseUserPasswd val with
    | .error _ => .panicNilDeref
    | .ok (user, au) =>
      if (userLookup users user).isSome then .fatal ("duplicate user".toList)
      else .ok ((user, au) :: users)

/-! ## Allowlist (auth.go lines 88-119 and 199-214) -/

/-- Value of one dotted-quad field for the `net.ParseIP` model: one to three
decimal digits with value at most 255. -/
def ipFieldVal (f : Str) : Option Nat :=
  if f = [] ∨ f.length > 3 ∨ ¬ f.all Char.isDigit then none
  else if decDigitsToNat f > 255 then none else some (decDigitsToNat f)

/-- Go `net.ParseIP` restricted to the IPv4 dotted-quad form (the allowlist
is IPv4-only; spec section 4.2), yielding the address as a 32-bit value. -/
def parseIPv4 (s : Str) : Option Nat :=
  match gosplit '.' s with
  | [a, b, c, d] =>
    match ipFieldVal a, ipFieldVal b, ipFieldVal c, ipFieldVal d with
    | some va, some vb, some vc, some vd =>
      some (va * 16777216 + vb * 65536 + vc * 256 + vd)
    | _, _, _, _ => none
  | _ => none

/-- Modelled from the spec: `NewNbitIPv4Mask n` (util.go, outside this file)
builds the IPv4 mask with `n` leading one bits — spec section 4.2: an entry
`ip/n` keeps the top `n` address bits and an entry without `/n` is `/32`. -/
def NewNbitIPv4Mask (n : Nat) : Nat := 4294967295 - (2 ^ (32 - n) - 1)

/-- One entry of `parseAllowedClient` (auth.go lines 94-118): trim, split on
`/`, parse the IP, parse and bound the mask width, and store the already
masked base address (`ip.Mask(mask)`). -/
def parseAllowedEntry (v : Str) : Except Str netAddr :=
  let s := trimSpace v
  let ipAndMask := gosplit '/' s
  if ipAndMask.length > 2 then
    .error ("allowedClient syntax error: client should be the form ip/nbitmask".toList)
  else
    match parseIPv4 (ipAndMask.getD 0 []) with
    | none => .error ("allowedClient syntax error: ip address not valid".toList)
    | some ip =>
      if ipAndMask.length = 2 then
        match goAtoi (ipAndMask.getD 1 []) with
        | none => .error ("allowedClient syntax error".toList)
        | some nbit =>
          if nbit > 32 then .error ("allowedClient error: mask number should <= 32".toList)
          else
            let mask := NewNbitIPv4Mask nbit.toNat
            .ok ⟨ip &&& mask, mask⟩
      else
        let mask := NewNbitIPv4Mask 32
        .ok ⟨ip &&& mask, mask⟩

/-- `parseAllowedClient` (auth.go lines 88-119): comma-separated entries; any
entry error is a `Fatal` at startup, modelled by the `Except` error. -/
def parseAllowedClient (val : Str) : Except Str (List netAddr) :=
  if val = [] then .ok []
  else (gosplit ',' val).mapM parseAllowedEntry

/-- `authIP` (auth.go lines 199-214): sequential scan testing
`ip.Mask(na.mask).Equal(na.ip)`.  The source panics when the argument is not
an IP address ("authIP should always get IP address"); that case is `none`. -/
def authIP (st : AuthState) (clientIP : Str) : Option Bool :=
  match parseIPv4 clientIP with
  | none => none
  | some ip => some (st.allowedClient.any (fun na => (ip &&& na.mask) == na.ip))

/-! ## Digest protocol (auth.go lines 216-325) -/

/-- `genNonce` (auth.go lines 216-220): `fmt.Fprintf(buf, "%x",
time.Now().Unix())` — the lowercase unpadded hex of the Unix time in
seconds. -/
def genNonce (tSec : Int) : Str := intToHex tSec

/-- `calcRequestDigest` (auth.go lines 222-233), rfc2617 section 3.2.2.1:
`md5sum(strings.Join([ha1, nonce, nc, cnonce, "auth", md5sum(method + ":" +
uri)], ":"))` where every field except `method` is read from the parsed
authorization header list. -/
def calcRequestDigest (md5sum : Str → Str) (kv : List (Str × Str)) (ha1 method : Str) : Str :=
  let arr : List Str :=
    [ha1,
     kvGet kv ("nonce".toList),
     kvGet kv ("nc".toList),
     kvGet kv ("cnonce".toList),
     "auth".toList,
     md5sum (method ++ ":".toList ++ kvGet kv ("uri".toList))]
  md5sum (List.intercalate (":".toList) arr)

/-- `authPort` (auth.go lines 253-264): a user with a nonzero restricted port
must be talking to exactly that local port; the local port is obtained from
`LocalAddr` and narrowed with `uint16(port)`. -/
def authPort (conn : ClientConn) (_user : Str) (au : authUser) : Option GoErr :=
  if au.port = 0 then none
  else if conn.localPort % 65536 ≠ au.port then some .authRequired
  else none

/-- `authBasic` (auth.go lines 266-283).  `b64decode` is the external
`base64.StdEncoding.DecodeString`. -/
def authBasic (b64decode : Str → Option Str) (conn : ClientConn) (st : AuthState)
    (userPasswd : Str) : Option GoErr :=
  match b64decode userPasswd with
  | none => some (.errMsg ("auth: illegal base64 data".toList))
  | some b64 =>
    let arr := gosplit ':' b64
    if arr.length ≠ 2 then some (.errMsg ("auth: malformed basic auth user:passwd".toList))
    else
      let user := arr.getD 0 []
      let passwd := arr.getD 1 []
      match userLookup st.user user with
      | none => some .authRequired
      | some au =>
        if au.passwd ≠ passwd then some .authRequired
        else authPort conn user au

/-- Two's-complement wrap of Go int64 arithmetic. -/
def wrap64 (x : Int) : Int :=
  (x + 9223372036854775808) % 18446744073709551616 - 9223372036854775808

/-- Go `time.Unix(sec, 0)`: the internal field of the resulting `time.Time`
counts seconds since year 1 and is computed as `sec + 62135596800` in int64
arithmetic, which wraps to the far past for `sec` in the topmost 62135596800
values of the int64 range (sec above 9223371974719179007). -/
def goUnixExtSec (sec : Int) : Int := wrap64 (sec + 62135596800)

/-- The staleness test `time.Now().Sub(time.Unix(nonceTime, 0)) > time.Minute`
(auth.go line 296).  `nowNs` is the Unix-epoch reading of `time.Now()` in
nanoseconds; Euclidean division by 10^9 gives its second and nanosecond
fields (Go keeps the nanosecond field in 0..999999999); any clock value the
program can actually observe lies far inside the int64 internal range, so
only the attacker-controlled nonce side can wrap, via `goUnixExtSec`.
`Time.Sub` returns the exact nanosecond difference of the two internal times
when representable in int64 and otherwise saturates to the int64 bound whose
sign matches the true difference, so comparing against one minute has the
same outcome as comparing the exact difference, which is what this
definition does. -/
def nonceStale (nowNs nonceTime : Int) : Bool :=
  (nowNs / 1000000000 + 62135596800 - goUnixExtSec nonceTime) * 1000000000
    + nowNs % 1000000000 > 60000000000

/-- The part of `authDigest` after the nonce freshness check (auth.go lines
300-324): user lookup, port restriction, qop check, response presence, lazy
HA1, digest comparison. -/
def authDigestAfterNonce (md5sum : Str → Str) (conn : ClientConn) (st : AuthState)
    (r : Request) (authHeader : List (Str × Str)) : Option GoErr :=
  let user := kvGet authHeader ("username".toList)
  match userLookup st.user user with
  | none => some .authRequired
  | some au =>
    match authPort conn user au with
    | some e => some e
    | none =>
      if kvGet authHeader ("qop".toList) ≠ "auth".toList then
        some (.errMsg ("auth: qop wrong".toList))
      else
        match kvGet? authHeader ("response".toList) with
        | none => some (.errMsg ("auth: no request-digest response".toList))
        | some response =>
          let au := initHA1 md5sum user au
          let digest := calcRequestDigest md5sum authHeader au.ha1 r.method
          if response ≠ digest then some .authRequired else none

/-- `authDigest` (auth.go lines 285-325).  `nowNs` is `time.Now()` in
nanoseconds; the staleness test `time.Now().Sub(time.Unix(nonceTime, 0)) >
time.Minute` compares nanosecond durations. -/
def authDigest (md5sum : Str → Str) (nowNs : Int) (conn : ClientConn) (st : AuthState)
    (r : Request) (keyVal : Str) : Option GoErr :=
  let authHeader := parseKeyValueList keyVal
  if authHeader = [] then some (.errMsg ("auth: empty authorization list".toList))
  else
    match parseHexInt64 (kvGet authHeader ("nonce".toList)) with
    | none => some (.errMsg ("auth: nonce not parsable".toList))
    | some nonceTime =>
      if nonceStale nowNs nonceTime then some .authRequired
      else authDigestAfterNonce md5sum conn st r authHeader

/-- `checkProxyAuthorization` (auth.go lines 235-251): split the header on
the first space into scheme and blob, dispatch on the lower-cased scheme. -/
def checkProxyAuthorization (md5sum : Str → Str) (b64decode : Str → Option Str)
    (nowNs : Int) (conn : ClientConn) (st : AuthState) (r : Request) : Option GoErr :=
  match gosplitN2 ' ' r.proxyAuthorization with
  | none => some (.errMsg ("auth: malformed ProxyAuthorization header".toList))
  | some (scheme, blob) =>
    let authMethod := goToLower (trimSpace scheme)
    if authMethod = "digest".toList then authDigest md5sum nowNs conn st r blob
    else if authMethod = "basic".toList then authBasic b64decode conn st blob
    else some (.errMsg ("auth: method unsupported, must use digest".toList))

/-! ## The 407 challenge template (auth.go lines 170-178) and orchestrator -/

/-- The `rawTemplate` string assembled in `initAuth` (auth.go lines 170-174):
status line, Proxy-Authenticate header with the realm constant and the
`.Nonce` template action, fixed headers, `Content-Length` rendered with
`fmt.Sprintf` from `len(authRawBodyTmpl)`, blank line, body. -/
def rawTemplate : Str :=
  "HTTP/1.1 407 Proxy Authentication Required\r\n".toList
  ++ "Proxy-Authenticate: Digest realm=\"".toList ++ authRealm
  ++ "\", nonce=\"\x7b\x7b.Nonce\x7d\x7d\", qop=\"auth\"\r\n".toList
  ++ "Content-Type: text/html\r\n".toList
  ++ "Cache-Control: no-cache\r\n".toList
  ++ "Content-Length: ".toList ++ natToDec authRawBodyTmpl.length
  ++ "\r\n\r\n".toList ++ authRawBodyTmpl

/-- The literal text of `rawTemplate` before its single `.Nonce` action; the
parsed `text/template` value is this pair of text chunks around the hole. -/
def authTemplateTextBefore : Str :=
  "HTTP/1.1 407 Proxy Authentication Required\r\n".toList
  ++ "Proxy-Authenticate: Digest realm=\"".toList ++ authRealm
  ++ "\", nonce=\"".toList

/-- The literal text of `rawTemplate` after its single `.Nonce` action. -/
def authTemplateTextAfter : Str :=
  "\", qop=\"auth\"\r\n".toList
  ++ "Content-Type: text/html\r\n".toList
  ++ "Cache-Control: no-cache\r\n".toList
  ++ "Content-Length: ".toList ++ natToDec authRawBodyTmpl.length
  ++ "\r\n\r\n".toList ++ authRawBodyTmpl

/-- `auth.template.Execute(buf, data)` with `data.Nonce = nonce`: the
external `text/template` engine writes the literal text around the single
action and the nonce in its place (no escaping in text templates). -/
def executeAuthTemplate (nonce : Str) : Str :=
  authTemplateTextBefore ++ nonce ++ authTemplateTextAfter

/-- Result of `authUserPasswd`: the returned error and the challenge bytes
written to the connection, if any.  The model assumes the connection write
succeeds; the 400 error page written by `sendErrorPage` on a client protocol
error is produced by an external collaborator and is not part of this
record. -/
structure AuthAttempt where
  err : Option GoErr
  challengeWritten : Option Str
deriving DecidableEq

/-- `authUserPasswd` (auth.go lines 327-357): verify a supplied
Proxy-Authorization header; on no header or on the undifferentiated
authentication-required outcome, render the 407 template with a fresh nonce,
write it, and return `errAuthRequired`. -/
def authUserPasswd (md5sum : Str → Str) (b64decode : Str → Option Str)
    (nowNs tSec : Int) (conn : ClientConn) (st : AuthState) (r : Request) : AuthAttempt :=
  let challenge : AuthAttempt :=
    ⟨some .authRequired, some (executeAuthTemplate (genNonce tSec))⟩
  if r.proxyAuthorization ≠ [] then
    match checkProxyAuthorization md5sum b64decode nowNs conn st r with
    | none => ⟨none, none⟩
    | some GoErr.authRequired => challenge
    | some (GoErr.errMsg m) => ⟨some (.errMsg m), none⟩
  else challenge

/-- Result of `Authenticate`: the returned error, the cache contents after
the call, and the challenge bytes written.  `panicked` models the panic
inside `authIP` on a non-IP remote address. -/
inductive AuthenticateResult where
  | result (err : Option GoErr) (authed : List Str) (written : Option Str)
  | panicked
deriving DecidableEq

/-- `Authenticate` (auth.go lines 183-197): cache check, allowlist check,
then the challenge/response protocol; a success of the latter inserts the
client IP into the cache.  Note that the function never consults
`auth.required`. -/
def Authenticate (md5sum : Str → Str) (b64decode : Str → Option Str)
    (nowNs tSec : Int) (conn : ClientConn) (st : AuthState) (r : Request) :
    AuthenticateResult :=
  let clientIP := conn.remoteIP
  if st.authed.contains clientIP then .result none st.authed none
  else
    match authIP st clientIP with
    | none => .panicked
    | some true => .result none st.authed none
    | some false =>
      let a := authUserPasswd md5sum b64decode nowNs tSec conn st r
      match a.err with
      | none => .result none (clientIP :: st.authed) a.challengeWritten
      | some e => .result (some e) st.authed a.challengeWritten

/-! ## Definitions written from the specification text, for comparison -/

/-- Written from the spec (section 4.3b): the RFC 2617 request digest
`MD5(HA1 ":" nonce ":" nc ":" cnonce ":" "auth" ":" MD5(method ":" uri))`,
parameterized by the method and uri the spec says are used. -/
def specRequestDigest (md5sum : Str → Str) (ha1 nonce nc cnonce method uri : Str) : Str :=
  md5sum (ha1 ++ ":".toList ++ nonce ++ ":".toList ++ nc ++ ":".toList ++ cnonce
    ++ ":auth:".toList ++ md5sum (method ++ ":".toList ++ uri))

/-- Written from the spec (section 6, response side): the challenge bytes up
to and excluding the nonce. -/
def specChallengeBefore : Str :=
  ("HTTP/1.1 407 Proxy Authentication Required\r\n"
    ++ "Proxy-Authenticate: Digest realm=\"cow proxy\", nonce=\"").toList

/-- Written from the spec (section 6, response side): the challenge bytes
after the nonce — the qop attribute, the fixed headers, a Content-Length
equal to the exact byte length of the fixed HTML body, a blank line, and
that body verbatim. -/
def specChallengeAfter : Str :=
  "\", qop=\"auth\"\r\nContent-Type: text/html\r\nCache-Control: no-cache\r\nContent-Length: ".toList
  ++ natToDec authRawBodyTmpl.length
  ++ "\r\n\r\n".toList
  ++ authRawBodyTmpl

/-- Written from the spec (section 6, response side): the full 407 challenge
for a given nonce. -/
def specChallenge407 (nonce : Str) : Str :=
  specChallengeBefore ++ nonce ++ specChallengeAfter

/-- The sixteen lowercase hexadecimal digit characters. -/
def lowerHexDigits : Str := "0123456789abcdef".toList

/-! ## Concrete fixtures used in witness and counterexample theorems -/

/-- A constant stand-in for the external MD5 helper; the universally
quantified theorems hold for every such function, so witnesses may pick a
trivial one. -/
def md5h : Str → Str := fun _ => "h".toList

/-- A base64 decoder stand-in returning a fixed decoded value. -/
def b64of (dec : String) : Str → Option Str := fun _ => some dec.toList

/-- A base64 decoder stand-in that always fails. -/
def b64none : Str → Option Str := fun _ => none

def sampleConn : ClientConn := ⟨"1.2.3.4".toList, 80⟩

/-- Store with user alice, password secret, no port restriction. -/
def sampleState : AuthState :=
  ⟨true, [("alice".toList, ⟨"secret".toList, [], 0⟩)], [], []⟩

/-- Store with user bob, password pw, restricted to port 8080. -/
def portState : AuthState :=
  ⟨true, [("bob".toList, ⟨"pw".toList, [], 8080⟩)], [], []⟩

def sampleReq : Request := ⟨"GET".toList, "/".toList, "Digest x".toList⟩

/-- A digest header list whose response matches what md5h computes. -/
def goodKeyVal : Str :=
  "username=\"alice\", nonce=\"1\", nc=00000001, cnonce=\"abc\", qop=auth, uri=\"/\", response=\"h\"".toList

/-- Same as goodKeyVal with a single-character change in the response. -/
def badKeyVal : Str :=
  "username=\"alice\", nonce=\"1\", nc=00000001, cnonce=\"abc\", qop=auth, uri=\"/\", response=\"g\"".toList

/-- A digest header list naming a user absent from the store. -/
def unknownKeyVal : Str :=
  "username=\"mallory\", nonce=\"1\", nc=00000001, cnonce=\"abc\", qop=auth, uri=\"/\", response=\"h\"".toList

/-- A digest header list for the port-restricted user bob. -/
def bobKeyVal : Str :=
  "username=\"bob\", nonce=\"1\", nc=00000001, cnonce=\"abc\", qop=auth, uri=\"/\", response=\"h\"".toList

/-- A digest header list whose nonce decodes to a far-future timestamp. -/
def futureKeyVal : Str :=
  "username=\"alice\", nonce=\"10000000000\", nc=00000001, cnonce=\"abc\", qop=auth, uri=\"/\", response=\"h\"".toList

/-- A digest header list whose nonce decodes to the int64 maximum, inside
the margin where Go's time.Unix wraps. -/
def wrapKeyVal : Str :=
  "username=\"alice\", nonce=\"7fffffffffffffff\", nc=00000001, cnonce=\"abc\", qop=auth, uri=\"/\", response=\"h\"".toList

/-- Allowlist state for 10.0.0.0/8. -/
def allow8State : AuthState := ⟨true, [], [⟨167772160, 4278190080⟩], []⟩

/-- Allowlist state for the single host 192.168.1.5. -/
def hostState : AuthState := ⟨true, [], [⟨3232235781, 4294967295⟩], []⟩

/-! ## Helper lemmas -/

theorem gosplit_ne_nil (c : Char) (s : Str) : gosplit c s ≠ [] := by
  induction s with
  | nil => simp [gosplit]
  | cons x xs ih =>
    simp only [gosplit]
    split
    · simp
    · split
      · simp
      · simp

theorem gosplit_append_sep (c : Char) (xs ys : Str) :
    gosplit c (xs ++ c :: ys) = gosplit c xs ++ gosplit c ys := by
  induction xs with
  | nil => simp [gosplit]
  | cons x xs ih =>
    simp only [List.cons_append, gosplit, List.append_eq]
    by_cases hx : x = c
    · simp [hx, ih]
    · simp only [if_neg hx, ih]
      obtain ⟨h, t, ht⟩ := List.exists_cons_of_ne_nil (gosplit_ne_nil c xs)
      rw [ht]
      simp

theorem gosplit_of_not_mem {c : Char} {s : Str} (h : c ∉ s) : gosplit c s = [s] := by
  induction s with
  | nil => rfl
  | cons x xs ih =>
    simp only [List.mem_cons, not_or] at h
    have hxc : x ≠ c := Ne.symm h.1
    simp [gosplit, hxc, ih h.2]

theorem mem_trimSpace {a : Char} {s : Str} (h : a ∈ trimSpace s) : a ∈ s := by
  unfold trimSpace at h
  rw [List.mem_reverse] at h
  have h2 := (List.dropWhile_sublist (l := (s.dropWhile Char.isWhitespace).reverse)
    (p := Char.isWhitespace)).mem h
  rw [List.mem_reverse] at h2
  exact (List.dropWhile_sublist (p := Char.isWhitespace)).mem h2

theorem digitCharB_mem_hex {d : Nat} (h : d < 16) : digitCharB d ∈ lowerHexDigits := by
  interval_cases d <;> decide

theorem hexDigitVal_digitCharB {d : Nat} (h : d < 16) : hexDigitVal (digitCharB d) = some d := by
  interval_cases d <;> decide

theorem digitCharB_ne_zero {d : Nat} (h0 : 0 < d) (h : d < 16) : digitCharB d ≠ '0' := by
  interval_cases d <;> decide

theorem natToBaseAux_zero (b fuel : Nat) : natToBaseAux b fuel 0 = [] := by
  cases fuel <;> rfl

theorem natToHexAux_ne_nil {n fuel : Nat} (h0 : 0 < n) (hf : n ≤ fuel) :
    natToBaseAux 16 fuel n ≠ [] := by
  cases fuel with
  | zero => omega
  | succ f =>
    cases n with
    | zero => omega
    | succ m => simp [natToBaseAux]

theorem lt16_of_div16_eq_zero {n : Nat} (h : n / 16 = 0) : n < 16 := by
  by_contra h'
  push_neg at h'
  exact absurd h (Nat.pos_iff_ne_zero.mp (Nat.div_pos h' (by norm_num)))

theorem natToHexAux_chars {n : Nat} : ∀ {fuel : Nat}, n ≤ fuel →
    ∀ c ∈ natToBaseAux 16 fuel n, c ∈ lowerHexDigits := by
  induction n using Nat.strong_induction_on with
  | _ n ih =>
    intro fuel hf c hc
    cases n with
    | zero => rw [natToBaseAux_zero] at hc; cases hc
    | succ m =>
      cases fuel with
      | zero => omega
      | succ f =>
        have hlt : (m + 1) / 16 < m + 1 := Nat.div_lt_self (by omega) (by norm_num)
        simp only [natToBaseAux, List.mem_append, List.mem_singleton] at hc
        rcases hc with hc | hc
        · exact ih ((m + 1) / 16) hlt (by omega) c hc
        · rw [hc]
          exact digitCharB_mem_hex (Nat.mod_lt _ (by norm_num))

theorem natToHexAux_head {n : Nat} : ∀ {fuel : Nat}, 0 < n → n ≤ fuel →
    (natToBaseAux 16 fuel n).headD ' ' ≠ '0' := by
  induction n using Nat.strong_induction_on with
  | _ n ih =>
    intro fuel h0 hf
    cases n with
    | zero => omega
    | succ m =>
      cases fuel with
      | zero => omega
      | succ f =>
        have hlt : (m + 1) / 16 < m + 1 := Nat.div_lt_self (by omega) (by norm_num)
        simp only [natToBaseAux]
        by_cases hq : (m + 1) / 16 = 0
        · rw [hq, natToBaseAux_zero, List.nil_append]
          have hm : (m + 1) % 16 = m + 1 := Nat.mod_eq_of_lt (lt16_of_div16_eq_zero hq)
          simp only [List.headD_cons, hm]
          exact digitCharB_ne_zero (by omega) (by omega)
        · have hdf : (m + 1) / 16 ≤ f := by omega
          obtain ⟨h, t, ht⟩ := List.exists_cons_of_ne_nil
            (natToHexAux_ne_nil (Nat.pos_of_ne_zero hq) hdf)
          rw [ht, List.cons_append, List.headD_cons]
          have hih := ih ((m + 1) / 16) hlt (Nat.pos_of_ne_zero hq) hdf
          rw [ht, List.headD_cons] at hih
          exact hih

theorem natToHexAux_val {n : Nat} : ∀ {fuel : Nat}, 0 < n → n ≤ fuel →
    hexDigitsToNat (natToBaseAux 16 fuel n) = some n := by
  induction n using Nat.strong_induction_on with
  | _ n ih =>
    intro fuel h0 hf
    cases n with
    | zero => omega
    | succ m =>
      cases fuel with
      | zero => omega
      | succ f =>
        have hlt : (m + 1) / 16 < m + 1 := Nat.div_lt_self (by omega) (by norm_num)
        simp only [natToBaseAux]
        unfold hexDigitsToNat
        rw [List.foldl_append]
        by_cases hq : (m + 1) / 16 = 0
        · rw [hq, natToBaseAux_zero]
          simp only [List.foldl_nil, List.foldl_cons, Option.bind_some]
          have hm : (m + 1) % 16 = m + 1 := Nat.mod_eq_of_lt (lt16_of_div16_eq_zero hq)
          rw [hexDigitVal_digitCharB (Nat.mod_lt _ (by norm_num))]
          simp [hm]
        · have hdf : (m + 1) / 16 ≤ f := by omega
          have hv := ih ((m + 1) / 16) hlt (Nat.pos_of_ne_zero hq) hdf
          unfold hexDigitsToNat at hv
          rw [hv]
          simp only [List.foldl_cons, List.foldl_nil]
          rw [hexDigitVal_digitCharB (Nat.mod_lt _ (by norm_num))]
          simp only [Option.some_bind, Option.map_some', Option.some.injEq]
          omega

theorem hexDigitsToNat_natToHex {n : Nat} : hexDigitsToNat (natToHex n) = some n := by
  rcases Nat.eq_zero_or_pos n with h0 | hpos
  · subst h0; decide
  · unfold natToHex natToBase
    rw [if_neg (Nat.pos_iff_ne_zero.mp hpos)]
    exact natToHexAux_val hpos le_rfl

theorem natToHex_chars {n : Nat} : ∀ c ∈ natToHex n, c ∈ lowerHexDigits := by
  rcases Nat.eq_zero_or_pos n with h0 | hpos
  · subst h0; decide
  · unfold natToHex natToBase
    rw [if_neg (Nat.pos_iff_ne_zero.mp hpos)]
    exact natToHexAux_chars le_rfl

theorem natToHex_ne_nil {n : Nat} : natToHex n ≠ [] := by
  rcases Nat.eq_zero_or_pos n with h0 | hpos
  · subst h0; decide
  · unfold natToHex natToBase
    rw [if_neg (Nat.pos_iff_ne_zero.mp hpos)]
    exact natToHexAux_ne_nil hpos le_rfl

theorem natToHex_head {n : Nat} (hpos : 0 < n) : (natToHex n).headD ' ' ≠ '0' := by
  unfold natToHex natToBase
  rw [if_neg (Nat.pos_iff_ne_zero.mp hpos)]
  exact natToHexAux_head hpos le_rfl

theorem mem_hex_ne_sign {c : Char} (h : c ∈ lowerHexDigits) : c ≠ '+' ∧ c ≠ '-' := by
  refine ⟨fun e => ?_, fun e => ?_⟩ <;> subst e <;> exact absurd h (by decide)

theorem parseHexInt64_natToHex {n : Nat} (h : n ≤ 9223372036854775807) :
    parseHexInt64 (natToHex n) = some (n : Int) := by
  obtain ⟨c, cs, hcs⟩ := List.exists_cons_of_ne_nil (natToHex_ne_nil (n := n))
  have hcmem : c ∈ lowerHexDigits := natToHex_chars c (hcs ▸ List.mem_cons_self c cs)
  obtain ⟨hp, hm⟩ := mem_hex_ne_sign hcmem
  have hval := hexDigitsToNat_natToHex (n := n)
  rw [hcs] at hval ⊢
  simp only [parseHexInt64, if_neg hp, if_neg hm, hval, if_pos h]

theorem ipFieldVal_le {f : Str} {v : Nat} (h : ipFieldVal f = some v) : v ≤ 255 := by
  unfold ipFieldVal at h
  split at h
  · cases h
  · split at h
    · cases h
    · rename_i h255
      simp only [Option.some.injEq] at h
      omega

theorem parseIPv4_lt {s : Str} {ip : Nat} (h : parseIPv4 s = some ip) : ip < 4294967296 := by
  unfold parseIPv4 at h
  split at h
  · split at h
    · rename_i va vb vc vd ha hb hc hd
      simp only [Option.some.injEq] at h
      have h1 := ipFieldVal_le ha
      have h2 := ipFieldVal_le hb
      have h3 := ipFieldVal_le hc
      have h4 := ipFieldVal_le hd
      omega
    · cases h
  · cases h

theorem parseAllowedEntry_noslash (s : Str) (ip : Nat) (hslash : '/' ∉ s)
    (hip : parseIPv4 (trimSpace s) = some ip) :
    parseAllowedEntry s = .ok ⟨ip, 4294967295⟩ := by
  have hslash2 : '/' ∉ trimSpace s := fun hm => hslash (mem_trimSpace hm)
  have hmask : NewNbitIPv4Mask 32 = 4294967295 := by decide
  have hand : ip &&& 4294967295 = ip := by
    rw [show (4294967295 : Nat) = 2 ^ 32 - 1 by norm_num]
    exact Nat.and_pow_two_sub_one_of_lt_two_pow (by have := parseIPv4_lt hip; omega)
  simp [parseAllowedEntry, gosplit_of_not_mem hslash2, hip, hmask, hand]

theorem gosplit_two {u p : Str} (hu : (':' : Char) ∉ u) (hp : (':' : Char) ∉ p) :
    gosplit ':' (u ++ ':' :: p) = [u, p] := by
  rw [gosplit_append_sep, gosplit_of_not_mem hu, gosplit_of_not_mem hp]
  rfl

theorem gosplit_three {u p q : Str} (hu : (':' : Char) ∉ u) (hp : (':' : Char) ∉ p)
    (hq : (':' : Char) ∉ q) :
    gosplit ':' (u ++ ':' :: (p ++ ':' :: q)) = [u, p, q] := by
  rw [gosplit_append_sep, gosplit_append_sep, gosplit_of_not_mem hu, gosplit_of_not_mem hp,
    gosplit_of_not_mem hq]
  rfl

theorem ite_cond_true {α : Sort _} (a b : α) : (if true = true then a else b) = a := by simp

theorem ite_cond_false {α : Sort _} (a b : α) : (if false = true then a else b) = b := by simp

theorem parseHexInt64_bounds {s : Str} {v : Int} (h : parseHexInt64 s = some v) :
    -9223372036854775808 ≤ v ∧ v ≤ 9223372036854775807 := by
  unfold parseHexInt64 at h
  repeat' split at h
  all_goals first
    | (simp only [Option.some.injEq] at h; omega)
    | cases h

theorem nonceStale_of_past {nowNs nonceTime : Int}
    (hlo : -9223372036854775808 ≤ nonceTime) (hhi : nonceTime ≤ 9223372036854775807)
    (hstale : nowNs - nonceTime * 1000000000 > 60000000000) :
    nonceStale nowNs nonceTime = true := by
  simp only [nonceStale, goUnixExtSec, wrap64, decide_eq_true_eq]
  omega

theorem nonceStale_iff_below_wrap {nowNs nonceTime : Int}
    (hlo : -9223372036854775808 ≤ nonceTime) (hhi : nonceTime ≤ 9223371974719179007) :
    (nonceStale nowNs nonceTime = true ↔ nowNs - nonceTime * 1000000000 > 60000000000) := by
  simp only [nonceStale, goUnixExtSec, wrap64, decide_eq_true_eq]
  omega

theorem nonceStale_of_wrap_margin {nowNs nonceTime : Int}
    (hlo : 9223371974719179007 < nonceTime) (hhi : nonceTime ≤ 9223372036854775807)
    (hnow : 0 ≤ nowNs) :
    nonceStale nowNs nonceTime = true := by
  simp only [nonceStale, goUnixExtSec, wrap64, decide_eq_true_eq]
  omega

theorem authDigest_unfold (md5sum : Str → Str) (nowNs : Int) (conn : ClientConn)
    (st : AuthState) (r : Request) (keyVal : Str) (kv : List (Str × Str)) (nonceTime : Int)
    (hparse : parseKeyValueList keyVal = kv) (hne : kv ≠ [])
    (hnonce : parseHexInt64 (kvGet kv ("nonce".toList)) = some nonceTime) :
    authDigest md5sum nowNs conn st r keyVal
      = if nonceStale nowNs nonceTime then some GoErr.authRequired
        else authDigestAfterNonce md5sum conn st r kv := by
  simp only [authDigest, hparse, if_neg hne, hnonce]

/-! ## Claim C1 -/

/-- C1 counterexample: the claim says the expected digest is computed from
the request line method and the request URI.  At the concrete header list
with uri=/evil and a request for uri /, the digest the code computes (from
the header uri field) differs from the digest the claim prescribes (from the
request URI), for the concrete md5 stand-in taking a string to itself. -/
theorem c1_counterexample :
    calcRequestDigest (fun s => s) [("uri".toList, "/evil".toList)] ("HA1".toList)
        (Request.mk ("GET".toList) ("/".toList) []).method
      ≠ specRequestDigest (fun s => s) ("HA1".toList)
          (kvGet [("uri".toList, "/evil".toList)] ("nonce".toList))
          (kvGet [("uri".toList, "/evil".toList)] ("nc".toList))
          (kvGet [("uri".toList, "/evil".toList)] ("cnonce".toList))
          (Request.mk ("GET".toList) ("/".toList) []).method
          (Request.mk ("GET".toList) ("/".toList) []).url := by decide

/-- C1 amended: in digest verification the method used to compute HA2 comes
from the current request line, but the uri is the uri field stored in the
parsed authorization header list; the verification outcome is independent of
the URI the request actually carries. -/
theorem c1_digest_uri_amended :
    (∀ (md5sum : Str → Str) (kv : List (Str × Str)) (ha1 method : Str),
        calcRequestDigest md5sum kv ha1 method
          = specRequestDigest md5sum ha1 (kvGet kv ("nonce".toList)) (kvGet kv ("nc".toList))
              (kvGet kv ("cnonce".toList)) method (kvGet kv ("uri".toList)))
  ∧ (∀ (md5sum : Str → Str) (nowNs : Int) (conn : ClientConn) (st : AuthState)
        (method u1 u2 pa keyVal : Str),
        authDigest md5sum nowNs conn st ⟨method, u1, pa⟩ keyVal
          = authDigest md5sum nowNs conn st ⟨method, u2, pa⟩ keyVal) := by
  constructor
  · intro md5sum kv ha1 method
    unfold calcRequestDigest specRequestDigest
    simp [List.intercalate, List.intersperse]
  · intro md5sum nowNs conn st method u1 u2 pa keyVal
    rfl

/-! ## Claim C2 -/

/-- C2 counterexample: with the required flag false, an empty cache, an
empty allowlist and an empty credential store, Authenticate does not return
success as a no-op: it runs the challenge protocol and returns the
authentication-required error, writing a challenge. -/
theorem c2_counterexample :
    Authenticate (fun s => s) (fun _ => none) 0 0 (ClientConn.mk ("1.2.3.4".toList) 80)
      (AuthState.mk false [] [] []) (Request.mk ("GET".toList) ("/".toList) [])
      ≠ AuthenticateResult.result none [] none := by decide

/-- C2 amended: Authenticate never consults the required flag at all — its
result is identical whatever the flag's value; the no-op fast path for
unrequired auth is implemented by the caller, outside this file.  As the
counterexample shows, the function does consult the cache, the allowlist and
the credential store even when the flag is false. -/
theorem c2_required_flag_amended (md5sum : Str → Str) (b64decode : Str → Option Str)
    (nowNs tSec : Int) (conn : ClientConn) (users : List (Str × authUser))
    (allowed : List netAddr) (authed : List Str) (r : Request) (b1 b2 : Bool) :
    Authenticate md5sum b64decode nowNs tSec conn ⟨b1, users, allowed, authed⟩ r
      = Authenticate md5sum b64decode nowNs tSec conn ⟨b2, users, allowed, authed⟩ r := rfl

/-! ## Claim C3 -/

/-- C3: the failure outcomes wrong password (Basic), unknown user (Basic or
Digest), digest-response mismatch, stale nonce, and port mismatch (through
authPort, authBasic and authDigest) all produce the one identical value
`some GoErr.authRequired`, indistinguishable at the interface. -/
theorem c3_auth_required_undifferentiated :
    (∀ (b64decode : Str → Option Str) (conn : ClientConn) (st : AuthState)
        (blob dec u p : Str) (au : authUser),
        b64decode blob = some dec → gosplit ':' dec = [u, p] →
        userLookup st.user u = some au → au.passwd ≠ p →
        authBasic b64decode conn st blob = some GoErr.authRequired)
  ∧ (∀ (b64decode : Str → Option Str) (conn : ClientConn) (st : AuthState)
        (blob dec u p : Str),
        b64decode blob = some dec → gosplit ':' dec = [u, p] →
        userLookup st.user u = none →
        authBasic b64decode conn st blob = some GoErr.authRequired)
  ∧ (∀ (md5sum : Str → Str) (nowNs : Int) (conn : ClientConn) (st : AuthState)
        (r : Request) (keyVal : Str) (kv : List (Str × Str)) (nonceTime : Int),
        parseKeyValueList keyVal = kv → kv ≠ [] →
        parseHexInt64 (kvGet kv ("nonce".toList)) = some nonceTime →
        ¬ nowNs - nonceTime * 1000000000 > 60000000000 →
        userLookup st.user (kvGet kv ("username".toList)) = none →
        authDigest md5sum nowNs conn st r keyVal = some GoErr.authRequired)
  ∧ (∀ (md5sum : Str → Str) (nowNs : Int) (conn : ClientConn) (st : AuthState)
        (r : Request) (keyVal : Str) (kv : List (Str × Str)) (nonceTime : Int)
        (au : authUser) (response : Str),
        parseKeyValueList keyVal = kv → kv ≠ [] →
        parseHexInt64 (kvGet kv ("nonce".toList)) = some nonceTime →
        ¬ nowNs - nonceTime * 1000000000 > 60000000000 →
        userLookup st.user (kvGet kv ("username".toList)) = some au →
        authPort conn (kvGet kv ("username".toList)) au = none →
        kvGet kv ("qop".toList) = "auth".toList →
        kvGet? kv ("response".toList) = some response →
        response ≠ calcRequestDigest md5sum kv
          (initHA1 md5sum (kvGet kv ("username".toList)) au).ha1 r.method →
        authDigest md5sum nowNs conn st r keyVal = some GoErr.authRequired)
  ∧ (∀ (md5sum : Str → Str) (nowNs : Int) (conn : ClientConn) (st : AuthState)
        (r : Request) (keyVal : Str) (kv : List (Str × Str)) (nonceTime : Int),
        parseKeyValueList keyVal = kv → kv ≠ [] →
        parseHexInt64 (kvGet kv ("nonce".toList)) = some nonceTime →
        nowNs - nonceTime * 1000000000 > 60000000000 →
        authDigest md5sum nowNs conn st r keyVal = some GoErr.authRequired)
  ∧ (∀ (conn : ClientConn) (u : Str) (au : authUser),
        au.port ≠ 0 → conn.localPort % 65536 ≠ au.port →
        authPort conn u au = some GoErr.authRequired)
  ∧ (∀ (b64decode : Str → Option Str) (conn : ClientConn) (st : AuthState)
        (blob dec u : Str) (au : authUser),
        b64decode blob = some dec → gosplit ':' dec = [u, au.passwd] →
        userLookup st.user u = some au →
        au.port ≠ 0 → conn.localPort % 65536 ≠ au.port →
        authBasic b64decode conn st blob = some GoErr.authRequired)
  ∧ (∀ (md5sum : Str → Str) (nowNs : Int) (conn : ClientConn) (st : AuthState)
        (r : Request) (keyVal : Str) (kv : List (Str × Str)) (nonceTime : Int)
        (au : authUser),
        parseKeyValueList keyVal = kv → kv ≠ [] →
        parseHexInt64 (kvGet kv ("nonce".toList)) = some nonceTime →
        ¬ nowNs - nonceTime * 1000000000 > 60000000000 →
        userLookup st.user (kvGet kv ("username".toList)) = some au →
        au.port ≠ 0 → conn.localPort % 65536 ≠ au.port →
        authDigest md5sum nowNs conn st r keyVal = some GoErr.authRequired) := by
  refine ⟨?_, ?_, ?_, ?_, ?_, ?_, ?_, ?_⟩
  · intro b64 conn st blob dec u p au hdec hsplit huser hpw
    simp [authBasic, hdec, hsplit, huser, hpw]
  · intro b64 conn st blob dec u p hdec hsplit huser
    simp [authBasic, hdec, hsplit, huser]
  · intro md5sum nowNs conn st r keyVal kv nonceTime hparse hne hnonce hfresh huser
    rw [authDigest_unfold md5sum nowNs conn st r keyVal kv nonceTime hparse hne hnonce]
    cases hst : nonceStale nowNs nonceTime
    · rw [ite_cond_false]
      simp only [authDigestAfterNonce, huser]
    · rw [ite_cond_true]
  · intro md5sum nowNs conn st r keyVal kv nonceTime au response hparse hne hnonce hfresh
      huser hport hqop hresp hrd
    rw [authDigest_unfold md5sum nowNs conn st r keyVal kv nonceTime hparse hne hnonce]
    cases hst : nonceStale nowNs nonceTime
    · rw [ite_cond_false]
      simp only [authDigestAfterNonce, huser, hport, hqop, hresp]
      rw [if_pos hrd]
      simp
    · rw [ite_cond_true]
  · intro md5sum nowNs conn st r keyVal kv nonceTime hparse hne hnonce hstale
    obtain ⟨hlo, hhi⟩ := parseHexInt64_bounds hnonce
    rw [authDigest_unfold md5sum nowNs conn st r keyVal kv nonceTime hparse hne hnonce,
      nonceStale_of_past hlo hhi hstale, ite_cond_true]
  · intro conn u au hz hmm
    simp [authPort, hz, hmm]
  · intro b64 conn st blob dec u au hdec hsplit huser hz hmm
    simp [authBasic, hdec, hsplit, huser, authPort, hz, hmm]
  · intro md5sum nowNs conn st r keyVal kv nonceTime au hparse hne hnonce hfresh huser hz hmm
    have hport : authPort conn (kvGet kv ("username".toList)) au = some GoErr.authRequired := by
      simp [authPort, hz, hmm]
    rw [authDigest_unfold md5sum nowNs conn st r keyVal kv nonceTime hparse hne hnonce]
    cases hst : nonceStale nowNs nonceTime
    · rw [ite_cond_false]
      simp only [authDigestAfterNonce, huser, hport]
    · rw [ite_cond_true]

/-- C3 witness: each undifferentiated failure evaluated at concrete inputs —
wrong Basic password, unknown Basic user, unknown Digest user, digest
response mismatch, stale nonce, port mismatch via authPort, authBasic and
authDigest — yields the same value `some GoErr.authRequired`. -/
theorem c3_witness :
    authBasic (b64of "alice:wrong") sampleConn sampleState ("x".toList) = some GoErr.authRequired
  ∧ authBasic (b64of "mallory:pw") sampleConn sampleState ("x".toList) = some GoErr.authRequired
  ∧ authDigest md5h 0 sampleConn sampleState sampleReq unknownKeyVal = some GoErr.authRequired
  ∧ authDigest md5h 0 sampleConn sampleState sampleReq badKeyVal = some GoErr.authRequired
  ∧ authDigest md5h (100 * 1000000000) sampleConn sampleState sampleReq goodKeyVal
      = some GoErr.authRequired
  ∧ authPort sampleConn ("bob".toList) ⟨"pw".toList, [], 8080⟩ = some GoErr.authRequired
  ∧ authBasic (b64of "bob:pw") sampleConn portState ("x".toList) = some GoErr.authRequired
  ∧ authDigest md5h 0 sampleConn portState sampleReq bobKeyVal = some GoErr.authRequired := by
  obtain ⟨h1, h2, h3, h4, h5, h6, h7, h8⟩ := c3_auth_required_undifferentiated
  refine ⟨?_, ?_, ?_, ?_, ?_, ?_, ?_, ?_⟩
  · exact h1 (b64of "alice:wrong") sampleConn sampleState ("x".toList) ("alice:wrong".toList)
      ("alice".toList) ("wrong".toList) ⟨"secret".toList, [], 0⟩ rfl (by decide) (by decide)
      (by decide)
  · exact h2 (b64of "mallory:pw") sampleConn sampleState ("x".toList) ("mallory:pw".toList)
      ("mallory".toList) ("pw".toList) rfl (by decide) (by decide)
  · exact h3 md5h 0 sampleConn sampleState sampleReq unknownKeyVal
      (parseKeyValueList unknownKeyVal) 1 rfl (by decide) (by decide) (by decide) (by decide)
  · exact h4 md5h 0 sampleConn sampleState sampleReq badKeyVal
      (parseKeyValueList badKeyVal) 1 ⟨"secret".toList, [], 0⟩ ("g".toList) rfl (by decide)
      (by decide) (by decide) (by decide) (by decide) (by decide) (by decide) (by decide)
  · exact h5 md5h (100 * 1000000000) sampleConn sampleState sampleReq goodKeyVal
      (parseKeyValueList goodKeyVal) 1 rfl (by decide) (by decide) (by decide)
  · exact h6 sampleConn ("bob".toList) ⟨"pw".toList, [], 8080⟩ (by decide) (by decide)
  · exact h7 (b64of "bob:pw") sampleConn portState ("x".toList) ("bob:pw".toList)
      ("bob".toList) ⟨"pw".toList, [], 8080⟩ rfl (by decide) (by decide) (by decide) (by decide)
  · exact h8 md5h 0 sampleConn portState sampleReq bobKeyVal (parseKeyValueList bobKeyVal) 1
      ⟨"pw".toList, [], 8080⟩ rfl (by decide) (by decide) (by decide) (by decide) (by decide)
      (by decide)

/-! ## Claim C4 -/

/-- C4: the digest key for user u with password p is md5(u ++ ":cow proxy:"
++ p); the expected request digest is md5(HA1 ++ ":" ++ nonce ++ ":" ++ nc
++ ":" ++ cnonce ++ ":auth:" ++ md5(method ++ ":" ++ uri)); and, all other
checks passing — the nonce accepted by the program's freshness test
(nonceStale, which reproduces the int64 wrap of time.Unix), the user found,
the port matching, qop auth, a response present — authDigest accepts exactly
a response equal to this value and rejects any other response string with
the authentication-required outcome. -/
theorem c4_digest_key_and_response :
    (∀ (md5sum : Str → Str) (user passwd : Str) (port : Nat),
        (initHA1 md5sum user ⟨passwd, [], port⟩).ha1
          = md5sum (user ++ ":cow proxy:".toList ++ passwd))
  ∧ (∀ (md5sum : Str → Str) (kv : List (Str × Str)) (ha1 method : Str),
        calcRequestDigest md5sum kv ha1 method
          = md5sum (ha1 ++ ":".toList ++ kvGet kv ("nonce".toList) ++ ":".toList
              ++ kvGet kv ("nc".toList) ++ ":".toList ++ kvGet kv ("cnonce".toList)
              ++ ":auth:".toList
              ++ md5sum (method ++ ":".toList ++ kvGet kv ("uri".toList))))
  ∧ (∀ (md5sum : Str → Str) (nowNs : Int) (conn : ClientConn) (st : AuthState)
        (r : Request) (keyVal : Str) (kv : List (Str × Str)) (nonceTime : Int)
        (au : authUser) (response : Str),
        parseKeyValueList keyVal = kv → kv ≠ [] →
        parseHexInt64 (kvGet kv ("nonce".toList)) = some nonceTime →
        nonceStale nowNs nonceTime = false →
        userLookup st.user (kvGet kv ("username".toList)) = some au →
        authPort conn (kvGet kv ("username".toList)) au = none →
        kvGet kv ("qop".toList) = "auth".toList →
        kvGet? kv ("response".toList) = some response →
        (authDigest md5sum nowNs conn st r keyVal = none
          ↔ response = calcRequestDigest md5sum kv
              (initHA1 md5sum (kvGet kv ("username".toList)) au).ha1 r.method)
        ∧ (response ≠ calcRequestDigest md5sum kv
              (initHA1 md5sum (kvGet kv ("username".toList)) au).ha1 r.method →
            authDigest md5sum nowNs conn st r keyVal = some GoErr.authRequired)) := by
  refine ⟨?_, ?_, ?_⟩
  · intro md5sum user passwd port
    simp [initHA1, authRealm]
  · intro md5sum kv ha1 method
    unfold calcRequestDigest
    simp [List.intercalate, List.intersperse]
  · intro md5sum nowNs conn st r keyVal kv nonceTime au response hparse hne hnonce hfresh
      huser hport hqop hresp
    rw [authDigest_unfold md5sum nowNs conn st r keyVal kv nonceTime hparse hne hnonce,
      hfresh, ite_cond_false]
    simp only [authDigestAfterNonce, huser, hport, hqop, hresp]
    constructor
    · by_cases hrd : response = calcRequestDigest md5sum kv
          (initHA1 md5sum (kvGet kv ("username".toList)) au).ha1 r.method
      · simp [hrd]
      · simp only [if_pos hrd, ne_eq, hrd]
        simp [hrd]
    · intro hrd
      rw [if_pos hrd]
      simp

/-- C4 witness: with the constant md5 stand-in, user alice and a concrete
header list, authDigest accepts exactly the matching response and rejects
the response differing in one character. -/
theorem c4_witness :
    authDigest md5h 0 sampleConn sampleState sampleReq goodKeyVal = none
  ∧ authDigest md5h 0 sampleConn sampleState sampleReq badKeyVal = some GoErr.authRequired
  ∧ (initHA1 md5h ("alice".toList) ⟨"secret".toList, [], 0⟩).ha1
      = md5h ("alice".toList ++ ":cow proxy:".toList ++ "secret".toList) := by
  obtain ⟨h1, h2, h3⟩ := c4_digest_key_and_response
  refine ⟨?_, ?_, ?_⟩
  · exact (h3 md5h 0 sampleConn sampleState sampleReq goodKeyVal
      (parseKeyValueList goodKeyVal) 1 ⟨"secret".toList, [], 0⟩ ("h".toList) rfl (by decide)
      (by decide) (by decide) (by decide) (by decide) (by decide) (by decide)).1.mpr (by decide)
  · exact (h3 md5h 0 sampleConn sampleState sampleReq badKeyVal
      (parseKeyValueList badKeyVal) 1 ⟨"secret".toList, [], 0⟩ ("g".toList) rfl (by decide)
      (by decide) (by decide) (by decide) (by decide) (by decide) (by decide)).2 (by decide)
  · exact h1 md5h ("alice".toList) ("secret".toList) 0

/-! ## Claim C5 -/

/-- C5: a digest authorization whose hex nonce decodes to a timestamp more
than sixty seconds before the current time is answered with the
authentication-required outcome, whatever the credential store, connection,
request and remaining header fields hold: the staleness check precedes
credential verification. -/
theorem c5_stale_nonce_rejected (md5sum : Str → Str) (nowNs : Int) (conn : ClientConn)
    (st : AuthState) (r : Request) (keyVal : Str) (kv : List (Str × Str)) (nonceTime : Int)
    (hparse : parseKeyValueList keyVal = kv) (hne : kv ≠ [])
    (hnonce : parseHexInt64 (kvGet kv ("nonce".toList)) = some nonceTime)
    (hstale : nowNs - nonceTime * 1000000000 > 60000000000) :
    authDigest md5sum nowNs conn st r keyVal = some GoErr.authRequired := by
  obtain ⟨hlo, hhi⟩ := parseHexInt64_bounds hnonce
  rw [authDigest_unfold md5sum nowNs conn st r keyVal kv nonceTime hparse hne hnonce,
    nonceStale_of_past hlo hhi hstale, ite_cond_true]

/-- C5 witness: the header list whose digest would otherwise be accepted
(same store, same response as the accepting c4 witness) is rejected with
authentication-required when the current time is 100 seconds past the nonce
timestamp. -/
theorem c5_witness :
    authDigest md5h (100 * 1000000000) sampleConn sampleState sampleReq goodKeyVal
      = some GoErr.authRequired :=
  c5_stale_nonce_rejected md5h (100 * 1000000000) sampleConn sampleState sampleReq goodKeyVal
    (parseKeyValueList goodKeyVal) 1 rfl (by decide) (by decide) (by decide)

/-! ## Claim C6 -/

/-- C6 counterexample: the claim says a nonce decoding to a timestamp at or
after the current time is never rejected for staleness, however far in the
future.  The nonce 7fffffffffffffff decodes to the int64 maximum — far after
now = 0, so now minus the timestamp does not exceed sixty seconds — yet
authDigest rejects it with the staleness outcome: time.Unix wraps the
timestamp into the far past and Sub saturates to the maximum duration.  The
same header list with a fresh nonce and the same response is accepted,
showing every other check passes. -/
theorem c6_counterexample :
    authDigest md5h 0 sampleConn sampleState sampleReq wrapKeyVal = some GoErr.authRequired
  ∧ ¬ ((0 : Int) - 9223372036854775807 * 1000000000 > 60000000000)
  ∧ authDigest md5h 0 sampleConn sampleState sampleReq goodKeyVal = none := by
  refine ⟨by decide, by decide, by decide⟩

/-- C6 amended: once the header list and nonce parse, authDigest rejects for
staleness exactly when the program's freshness test nonceStale holds.  For
nonce timestamps below the int64 wrap margin (at most 9223371974719179007,
the largest second count time.Unix can represent) that test is exactly
now minus the timestamp exceeding sixty seconds, so future timestamps in
that range are never rejected for staleness; timestamps above the margin —
the topmost 62135596800 int64 values, which time.Unix wraps into the far
past — are always rejected as stale. -/
theorem c6_freshness_amended :
    (∀ (md5sum : Str → Str) (nowNs : Int) (conn : ClientConn) (st : AuthState)
        (r : Request) (keyVal : Str) (kv : List (Str × Str)) (nonceTime : Int),
        parseKeyValueList keyVal = kv → kv ≠ [] →
        parseHexInt64 (kvGet kv ("nonce".toList)) = some nonceTime →
        authDigest md5sum nowNs conn st r keyVal
          = if nonceStale nowNs nonceTime then some GoErr.authRequired
            else authDigestAfterNonce md5sum conn st r kv)
  ∧ (∀ nowNs nonceTime : Int,
        -9223372036854775808 ≤ nonceTime → nonceTime ≤ 9223371974719179007 →
        (nonceStale nowNs nonceTime = true ↔ nowNs - nonceTime * 1000000000 > 60000000000))
  ∧ (∀ nowNs nonceTime : Int,
        9223371974719179007 < nonceTime → nonceTime ≤ 9223372036854775807 → 0 ≤ nowNs →
        nonceStale nowNs nonceTime = true) := by
  refine ⟨?_, ?_, ?_⟩
  · intro md5sum nowNs conn st r keyVal kv nonceTime hparse hne hnonce
    exact authDigest_unfold md5sum nowNs conn st r keyVal kv nonceTime hparse hne hnonce
  · intro nowNs nonceTime hlo hhi
    exact nonceStale_iff_below_wrap hlo hhi
  · intro nowNs nonceTime hlo hhi hnow
    exact nonceStale_of_wrap_margin hlo hhi hnow

/-- C6 witness for the amended claim: the below-margin future nonce
10000000000 hex (about the year 36812) is not stale at now = 0 and
verification proceeds past the freshness check, while the wrap-margin
timestamp at the int64 maximum is classified stale. -/
theorem c6_amended_witness :
    authDigest md5h 0 sampleConn sampleState sampleReq futureKeyVal
      = authDigestAfterNonce md5h sampleConn sampleState sampleReq
          (parseKeyValueList futureKeyVal)
  ∧ nonceStale 0 1099511627776 = false
  ∧ nonceStale 0 9223372036854775807 = true := by
  obtain ⟨h1, h2, h3⟩ := c6_freshness_amended
  have hfr : nonceStale 0 1099511627776 = false := by
    cases hb : nonceStale 0 1099511627776
    · rfl
    · exact absurd ((h2 0 1099511627776 (by decide) (by decide)).mp hb) (by decide)
  refine ⟨?_, hfr, h3 0 9223372036854775807 (by decide) (by decide) (by decide)⟩
  rw [h1 md5h 0 sampleConn sampleState sampleReq futureKeyVal (parseKeyValueList futureKeyVal)
      1099511627776 rfl (by decide) (by decide), hfr, ite_cond_false]

/-! ## Claim C7 -/

/-- C7: the allowlist matcher returns true exactly when some configured rule
satisfies clientIP AND mask = baseIP; an entry configured without a
prefix-length parses to a /32 single-host rule, and such a rule matches
exactly the configured address. -/
theorem c7_allowlist_match :
    (∀ (st : AuthState) (clientIP : Str) (ip : Nat),
        parseIPv4 clientIP = some ip →
        (authIP st clientIP = some true
          ↔ ∃ na ∈ st.allowedClient, ip &&& na.mask = na.ip))
  ∧ (∀ (s : Str) (ip : Nat), (',' : Char) ∉ s → ('/' : Char) ∉ s →
        parseIPv4 (trimSpace s) = some ip →
        parseAllowedClient s = .ok [⟨ip, 4294967295⟩])
  ∧ (∀ (st : AuthState) (clientStr : Str) (client ip : Nat),
        st.allowedClient = [⟨ip, 4294967295⟩] →
        parseIPv4 clientStr = some client →
        (authIP st clientStr = some true ↔ client = ip)) := by
  refine ⟨?_, ?_, ?_⟩
  · intro st clientIP ip h
    simp [authIP, h, List.any_eq_true]
  · intro s ip hcomma hslash hip
    have hs : s ≠ [] := by
      rintro rfl
      rw [show trimSpace [] = [] from rfl] at hip
      rw [show parseIPv4 [] = none from rfl] at hip
      cases hip
    unfold parseAllowedClient
    rw [if_neg hs, gosplit_of_not_mem hcomma]
    simp [List.mapM.loop, parseAllowedEntry_noslash s ip hslash hip, Except.bind]
  · intro st clientStr client ip hrules hclient
    have hlt := parseIPv4_lt hclient
    simp [authIP, hclient, hrules]
    rw [show (4294967295 : Nat) = 2 ^ 32 - 1 by norm_num,
      Nat.and_pow_two_sub_one_of_lt_two_pow (by omega)]

/-- C7 witness: configuring 10.0.0.0/8 matches 10.1.2.3 and not 11.0.0.0;
configuring 192.168.1.5 without a prefix yields the /32 rule that matches
exactly 192.168.1.5 and not 192.168.1.6. -/
theorem c7_witness :
    authIP allow8State ("10.1.2.3".toList) = some true
  ∧ ¬ authIP allow8State ("11.0.0.0".toList) = some true
  ∧ parseAllowedClient ("192.168.1.5".toList) = .ok [⟨3232235781, 4294967295⟩]
  ∧ authIP hostState ("192.168.1.5".toList) = some true
  ∧ ¬ authIP hostState ("192.168.1.6".toList) = some true := by
  obtain ⟨ha, hb, hc⟩ := c7_allowlist_match
  refine ⟨?_, ?_, ?_, ?_, ?_⟩
  · exact (ha allow8State ("10.1.2.3".toList) 167838211 (by decide)).mpr
      ⟨⟨167772160, 4278190080⟩, by decide, by decide⟩
  · exact fun h => absurd ((ha allow8State ("11.0.0.0".toList) 184549376 (by decide)).mp h)
      (by decide)
  · exact hb ("192.168.1.5".toList) 3232235781 (by decide) (by decide) (by decide)
  · exact (hc hostState ("192.168.1.5".toList) 3232235781 3232235781 (by decide)
      (by decide)).mpr rfl
  · exact fun h => absurd ((hc hostState ("192.168.1.6".toList) 3232235782 3232235781
      (by decide) (by decide)).mp h) (by decide)

/-! ## Claim C8 -/

/-- C8: the claim says a malformed credential spec makes addUser fail with an
error and leave the store unchanged.  In the code, for every non-empty spec
on which parseUserPasswd returns an error, addUserPasswd dereferences the
nil record in the debug.Println arguments before the error check runs, so
startup dies with a nil-pointer panic rather than the intended Fatal(err):
the error-reporting line is unreachable for exactly the inputs it guards.
The store is indeed never mutated (the process dies either way).  The
conjuncts evaluate representative malformed specs: no colon, three colons,
empty user, empty password, non-numeric port, port 0, port out of range. -/
theorem c8_malformed_credential_panics :
    (∀ (val : Str) (users : List (Str × authUser)) (e : Str),
        val ≠ [] → parseUserPasswd val = .error e →
        addUserPasswd val users = AddUserResult.panicNilDeref)
  ∧ ((parseUserPasswd ("alice".toList)).isOk = false
      ∧ ∀ users, addUserPasswd ("alice".toList) users = AddUserResult.panicNilDeref)
  ∧ ((parseUserPasswd ("a:b:c:d".toList)).isOk = false
      ∧ ∀ users, addUserPasswd ("a:b:c:d".toList) users = AddUserResult.panicNilDeref)
  ∧ ((parseUserPasswd (":pw".toList)).isOk = false
      ∧ ∀ users, addUserPasswd (":pw".toList) users = AddUserResult.panicNilDeref)
  ∧ ((parseUserPasswd ("u:".toList)).isOk = false
      ∧ ∀ users, addUserPasswd ("u:".toList) users = AddUserResult.panicNilDeref)
  ∧ ((parseUserPasswd ("u:p:x".toList)).isOk = false
      ∧ ∀ users, addUserPasswd ("u:p:x".toList) users = AddUserResult.panicNilDeref)
  ∧ ((parseUserPasswd ("u:p:0".toList)).isOk = false
      ∧ ∀ users, addUserPasswd ("u:p:0".toList) users = AddUserResult.panicNilDeref)
  ∧ ((parseUserPasswd ("u:p:99999".toList)).isOk = false
      ∧ ∀ users, addUserPasswd ("u:p:99999".toList) users = AddUserResult.panicNilDeref) := by
  have hgen : ∀ (val : Str) (users : List (Str × authUser)) (e : Str),
      val ≠ [] → parseUserPasswd val = .error e →
      addUserPasswd val users = AddUserResult.panicNilDeref := by
    intro val users e hv hp
    simp [addUserPasswd, hv, hp]
  refine ⟨hgen, ?_, ?_, ?_, ?_, ?_, ?_, ?_⟩ <;>
    exact ⟨by decide, fun users => rfl⟩

/-- C8 witness: the general panic statement applied to the concrete
malformed spec "alice" with an empty store. -/
theorem c8_witness :
    addUserPasswd ("alice".toList) [] = AddUserResult.panicNilDeref :=
  c8_malformed_credential_panics.1 ("alice".toList) []
    ("user password syntax wrong, should be username:password[:port]".toList)
    (by decide) rfl

/-! ## Claim C9 -/

/-- C9: a valid spec user:pass or user:pass:port with a port in 1..65535
parses to a record with exactly that password and port; an omitted or
explicitly empty third field yields port 0; and after a successful add the
lookup of the username returns exactly the added record. -/
theorem c9_valid_credential_roundtrip :
    (∀ u p : Str, u ≠ [] → p ≠ [] → (':' : Char) ∉ u → (':' : Char) ∉ p →
        parseUserPasswd (u ++ ':' :: p) = .ok (u, ⟨p, [], 0⟩))
  ∧ (∀ (u p portStr : Str) (port : Int), u ≠ [] → p ≠ [] →
        (':' : Char) ∉ u → (':' : Char) ∉ p → (':' : Char) ∉ portStr →
        goAtoi portStr = some port → 0 < port → port ≤ 65535 →
        parseUserPasswd (u ++ ':' :: (p ++ ':' :: portStr)) = .ok (u, ⟨p, [], port.toNat⟩))
  ∧ (∀ u p : Str, u ≠ [] → p ≠ [] → (':' : Char) ∉ u → (':' : Char) ∉ p →
        parseUserPasswd (u ++ ':' :: (p ++ [':'])) = .ok (u, ⟨p, [], 0⟩))
  ∧ (∀ (val : Str) (users : List (Str × authUser)) (u : Str) (au : authUser),
        parseUserPasswd val = .ok (u, au) → userLookup users u = none →
        addUserPasswd val users = .ok ((u, au) :: users)
          ∧ userLookup ((u, au) :: users) u = some au) := by
  refine ⟨?_, ?_, ?_, ?_⟩
  · intro u p hu hp hcu hcp
    have harr := gosplit_two hcu hcp
    simp [parseUserPasswd, harr, hu, hp]
  · intro u p portStr port hu hp hcu hcp hcq hatoi hpos hle
    have harr := gosplit_three hcu hcp hcq
    have hq : portStr ≠ [] := by
      rintro rfl
      simp [goAtoi] at hatoi
    have hmod : port.toNat % 65536 = port.toNat := Nat.mod_eq_of_lt (by omega)
    simp [parseUserPasswd, harr, hu, hp, hq, hatoi, hmod, not_lt.mpr hle, not_lt.mpr hpos.le]
    omega
  · intro u p hu hp hcu hcp
    have harr : gosplit ':' (u ++ ':' :: (p ++ [':'])) = [u, p, []] := by
      rw [show (p ++ [':'] : Str) = p ++ ':' :: [] from rfl]
      rw [gosplit_append_sep, gosplit_append_sep, gosplit_of_not_mem hcu,
        gosplit_of_not_mem hcp]
      rfl
    simp [parseUserPasswd, harr, hu, hp]
  · intro val users u au hparse hdup
    have hv : val ≠ [] := by
      rintro rfl
      rw [show parseUserPasswd []
        = .error ("user password syntax wrong, should be username:password[:port]".toList)
        from rfl] at hparse
      cases hparse
    constructor
    · simp [addUserPasswd, hv, hparse, hdup]
    · simp [userLookup]

/-- C9 witness: concrete valid specs — a port-restricted user, a user
without a port field, a user with an explicitly empty port field — parse to
exactly the expected records, and lookup after add returns the record. -/
theorem c9_witness :
    parseUserPasswd ("alice:secret:8080".toList)
      = .ok ("alice".toList, ⟨"secret".toList, [], 8080⟩)
  ∧ parseUserPasswd ("bob:pw".toList) = .ok ("bob".toList, ⟨"pw".toList, [], 0⟩)
  ∧ parseUserPasswd ("carol:pw:".toList) = .ok ("carol".toList, ⟨"pw".toList, [], 0⟩)
  ∧ addUserPasswd ("bob:pw".toList) []
      = .ok [("bob".toList, ⟨"pw".toList, [], 0⟩)]
  ∧ userLookup [("bob".toList, ⟨"pw".toList, [], 0⟩)] ("bob".toList)
      = some ⟨"pw".toList, [], 0⟩ := by
  obtain ⟨h1, h2, h3, h4⟩ := c9_valid_credential_roundtrip
  refine ⟨?_, ?_, ?_, ?_, ?_⟩
  · exact h2 ("alice".toList) ("secret".toList) ("8080".toList) 8080 (by decide) (by decide)
      (by decide) (by decide) (by decide) (by decide) (by decide) (by decide)
  · exact h1 ("bob".toList) ("pw".toList) (by decide) (by decide) (by decide) (by decide)
  · exact h3 ("carol".toList) ("pw".toList) (by decide) (by decide) (by decide) (by decide)
  · exact (h4 ("bob:pw".toList) [] ("bob".toList) ⟨"pw".toList, [], 0⟩ rfl rfl).1
  · exact (h4 ("bob:pw".toList) [] ("bob".toList) ⟨"pw".toList, [], 0⟩ rfl rfl).2

/-! ## Claim C10 -/

set_option maxRecDepth 16384 in
/-- C10: the rendered 407 challenge is byte-exact — it equals the
specification layout: status line, Proxy-Authenticate with realm cow proxy,
the nonce and qop auth, Content-Type, Cache-Control, a Content-Length equal
to the byte length of the fixed HTML body, a blank line, and that body
verbatim; the template body around the single nonce hole is exactly the
source raw template; authUserPasswd writes exactly this rendering of a
fresh nonce; and the nonce is the lowercase unpadded hexadecimal encoding
of the Unix time in seconds, the only varying part. -/
theorem c10_challenge_bytes :
    (∀ nonce : Str, executeAuthTemplate nonce = specChallenge407 nonce)
  ∧ (authTemplateTextBefore ++ ("\x7b\x7b.Nonce\x7d\x7d".toList) ++ authTemplateTextAfter
      = rawTemplate)
  ∧ (∀ (md5sum : Str → Str) (b64decode : Str → Option Str) (nowNs tSec : Int)
        (conn : ClientConn) (st : AuthState) (r : Request),
        r.proxyAuthorization = [] →
        authUserPasswd md5sum b64decode nowNs tSec conn st r
          = ⟨some GoErr.authRequired, some (executeAuthTemplate (genNonce tSec))⟩)
  ∧ (∀ t : Int, 0 ≤ t → genNonce t = natToHex t.toNat)
  ∧ (∀ n : Nat,
        (∀ c ∈ natToHex n, c ∈ lowerHexDigits)
      ∧ (0 < n → (natToHex n).headD ' ' ≠ '0')
      ∧ (n ≤ 9223372036854775807 → parseHexInt64 (natToHex n) = some (n : Int))) := by
  refine ⟨?_, ?_, ?_, ?_, ?_⟩
  · intro nonce
    have hb : authTemplateTextBefore = specChallengeBefore := by decide
    have ha : authTemplateTextAfter = specChallengeAfter := by decide
    simp only [executeAuthTemplate, specChallenge407, hb, ha]
  · decide
  · intro md5sum b64decode nowNs tSec conn st r h
    simp [authUserPasswd, h]
  · intro t ht
    unfold genNonce intToHex
    rw [if_neg (by omega)]
  · intro n
    exact ⟨natToHex_chars, fun h => natToHex_head h, fun h => parseHexInt64_natToHex h⟩

/-- C10 witness: at the concrete Unix time 1600000000 the rendered template
equals the specification layout for the hex nonce 5f5e1000, authUserPasswd
writes exactly those bytes, and the nonce round-trips as lowercase unpadded
hexadecimal. -/
theorem c10_witness :
    executeAuthTemplate (genNonce 1600000000) = specChallenge407 (natToHex 1600000000)
  ∧ authUserPasswd md5h b64none 0 1600000000 sampleConn sampleState
      (Request.mk ("GET".toList) ("/".toList) [])
      = ⟨some GoErr.authRequired, some (executeAuthTemplate (genNonce 1600000000))⟩
  ∧ (∀ c ∈ natToHex 1600000000, c ∈ lowerHexDigits)
  ∧ (natToHex 1600000000).headD ' ' ≠ '0'
  ∧ parseHexInt64 (natToHex 1600000000) = some 1600000000 := by
  obtain ⟨h1, h2, h3, h4, h5⟩ := c10_challenge_bytes
  refine ⟨?_, ?_, ?_, ?_, ?_⟩
  · have e : genNonce 1600000000 = natToHex 1600000000 := h4 1600000000 (by decide)
    rw [← e]
    exact h1 (genNonce 1600000000)
  · exact h3 md5h b64none 0 1600000000 sampleConn sampleState
      (Request.mk ("GET".toList) ("/".toList) []) rfl
  · exact (h5 1600000000).1
  · exact (h5 1600000000).2.1 (by decide)
  · exact (h5 1600000000).2.2 (by decide)

end Cow
